import Mathlib

/-
Shallow embedding of `statsmodels/discrete/truncated_model.py`.

The file models, over the reals, the pieces of the module that the claims
touch: the `GenericTruncated` log-likelihood and score reweighting loops,
the `GenericTruncated.__init__` row filtering, the `GenericCensored`
log-likelihood concatenation, the argument records the `fit` methods pass
to the superclass optimizer driver, the `TruncatedGeneralizedPoisson`
mean-prediction branch, and the `Hurdle` parameter split, fit-time
`k_extra` accumulation, and composite `predict` formulas.

Base count distributions (Poisson, NegativeBinomialP, GeneralizedPoisson)
are external collaborators of this module: they enter as abstract
structures providing per-observation log-likelihood and score as functions
of the response vector, with the design-matrix context fixed, exactly the
way `truncated_model.py` re-instantiates them with counterfactual
responses over the same `exog`.
-/

namespace TruncatedModelPy

noncomputable section

/-- External collaborator: a base count model over a fixed design matrix
(`exog`) context, with `n` observations and `k` parameters.  Its
per-observation log-likelihood and score are functions of the response
vector, mirroring how `truncated_model.py` builds
`self.model_main.__class__(np.ones_like(self.endog) * i, self.exog)`:
same class and same `exog`, a different response vector. -/
structure BaseModel (n k : ℕ) where
  loglikeobs : (Fin n → ℝ) → (Fin k → ℝ) → Fin n → ℝ
  score_obs : (Fin n → ℝ) → (Fin k → ℝ) → Fin n → Fin k → ℝ

/-- Number of iterations of the `for i in range(self.trunc + 1)` loops of
`GenericTruncated.loglikeobs` and `GenericTruncated.score_obs`; for
`trunc = -1` the loop body never runs. -/
def truncIter (trunc : ℤ) : ℕ := (trunc + 1).toNat

/-- The `pmf` accumulator of the loops in `GenericTruncated.loglikeobs`
and `GenericTruncated.score_obs` after `m` iterations: each iteration `i`
adds `np.exp(model.loglikeobs(params))` for the counterfactual model whose
response vector is constantly `i`. -/
def pmfLoop {n k : ℕ} (M : BaseModel n k) (params : Fin k → ℝ) (j : Fin n) : ℕ → ℝ
  | 0 => 0
  | m + 1 => pmfLoop M params j m + Real.exp (M.loglikeobs (fun _ => (m : ℝ)) params j)

/-- The `score_trunc` accumulator of the loop in
`GenericTruncated.score_obs` after `m` iterations: each iteration `i` adds
`model.score_obs(params) * pmf_i` for the counterfactual model at count
`i`. -/
def scoreTruncLoop {n k : ℕ} (M : BaseModel n k) (params : Fin k → ℝ) (j : Fin n)
    (c : Fin k) : ℕ → ℝ
  | 0 => 0
  | m + 1 => scoreTruncLoop M params j c m +
      M.score_obs (fun _ => (m : ℝ)) params j c *
        Real.exp (M.loglikeobs (fun _ => (m : ℝ)) params j)

/-- Embedding of `GenericTruncated.loglikeobs` (truncated_model.py lines
92-121): `llf = llf_main - np.log(1 - pmf)` with `pmf` accumulated over
`i in range(trunc + 1)`. -/
def trunc_loglikeobs {n k : ℕ} (M : BaseModel n k) (trunc : ℤ) (endog : Fin n → ℝ)
    (params : Fin k → ℝ) (j : Fin n) : ℝ :=
  M.loglikeobs endog params j - Real.log (1 - pmfLoop M params j (truncIter trunc))

/-- Embedding of `GenericTruncated.score_obs` (truncated_model.py lines
123-151): `dparams = score_main + (score_trunc.T / (1 - pmf)).T`, one
entry per observation `j` and parameter column `c`. -/
def trunc_score_obs {n k : ℕ} (M : BaseModel n k) (trunc : ℤ) (endog : Fin n → ℝ)
    (params : Fin k → ℝ) (j : Fin n) (c : Fin k) : ℝ :=
  M.score_obs endog params j c +
    scoreTruncLoop M params j c (truncIter trunc) /
      (1 - pmfLoop M params j (truncIter trunc))

/-- The per-observation score formula exactly as the specification states
it for claim C1: `score_main` MINUS the truncation term
`(Σ_i pmf_i · score_main_at_i) / (1 - Σ_i pmf_i)`.  Kept separate from
`trunc_score_obs`, which embeds the source, so the two can be compared. -/
def trunc_score_obs_specform {n k : ℕ} (M : BaseModel n k) (trunc : ℤ)
    (endog : Fin n → ℝ) (params : Fin k → ℝ) (j : Fin n) (c : Fin k) : ℝ :=
  M.score_obs endog params j c -
    (∑ i ∈ Finset.range (truncIter trunc),
        M.score_obs (fun _ => (i : ℝ)) params j c *
          Real.exp (M.loglikeobs (fun _ => (i : ℝ)) params j)) /
      (1 - ∑ i ∈ Finset.range (truncIter trunc),
          Real.exp (M.loglikeobs (fun _ => (i : ℝ)) params j))

/-- A concrete base count distribution for counterexamples: the geometric
distribution with success parameter `p = params 0`, log-pmf
`log (1 - p) + y * log p` and its genuine derivative in `p`,
`-1 / (1 - p) + y / p`, as the per-observation score. -/
def geomBase : BaseModel 1 1 where
  loglikeobs := fun endog params j => Real.log (1 - params 0) + endog j * Real.log (params 0)
  score_obs := fun endog params j _ => -(1 / (1 - params 0)) + endog j / params 0

/-- The boolean row mask `self.endog >= (truncation + 1)` computed by
`GenericTruncated.__init__` (truncated_model.py lines 64-65) from the
original, unfiltered response vector; responses are integer counts. -/
def truncMask (endog : List ℤ) (truncation : ℤ) : List Bool :=
  endog.map (fun y => decide (truncation + 1 ≤ y))

/-- Numpy-style boolean-mask indexing `xs[mask]`: keep the entries of `xs`
whose mask position is `true`. -/
def maskFilter {α : Type} (mask : List Bool) (xs : List α) : List α :=
  (mask.zip xs).filterMap fun p => if p.1 then some p.2 else none

/-- The data a `GenericTruncated` model stores at construction: the
filtered response and design rows and the truncation point (`self.endog`,
`self.exog`, `self.trunc`). -/
structure TruncData (α : Type) where
  endog : List ℤ
  exog : List α
  trunc : ℤ

/-- Embedding of `GenericTruncated.__init__` (truncated_model.py lines
54-68): `self.exog = self.exog[self.endog >= (truncation + 1)]` followed by
`self.endog = self.endog[self.endog >= (truncation + 1)]`, both masks
computed from the original response vector, and `self.trunc = truncation`.
All operations of the embedding are pure functions of this record, so the
stored data is never modified afterwards. -/
def truncInit {α : Type} (endog : List ℤ) (exog : List α) (truncation : ℤ) :
    TruncData α :=
  { endog := maskFilter (truncMask endog truncation) endog
  , exog := maskFilter (truncMask endog truncation) exog
  , trunc := truncation }

/-- The ascending index list `np.nonzero(endog == 0)[0]` computed by
`GenericCensored.__init__` from the unfiltered response vector. -/
def zeroIdx (endog : List ℤ) : List ℕ :=
  (List.range endog.length).filter (fun j => decide (endog.getD j 0 = 0))

/-- The ascending index list `np.nonzero(endog)[0]` computed by
`GenericCensored.__init__` from the unfiltered response vector. -/
def nonzeroIdx (endog : List ℤ) : List ℕ :=
  (List.range endog.length).filter (fun j => decide (¬ endog.getD j 0 = 0))

/-- External collaborator for the censored models: a base count model over
a fixed design-matrix context whose per-observation log-likelihood is a
function of the response vector (given as a list) and the parameters, with
a row index. -/
structure BaseRowModel where
  loglikeobs : List ℤ → List ℝ → ℕ → ℝ

/-- Row `j` of `self.model_main.loglikeobs(params)` inside
`GenericCensored.loglikeobs`: the censored subclasses construct
`model_main` with the all-zero placeholder response
`np.zeros_like(self.endog)`, so this is the base distribution's
log-probability of the count `0` for row `j`, `log f(0|x_j)`. -/
def censoredLlfMain (B : BaseRowModel) (endog : List ℤ) (params : List ℝ) (j : ℕ) : ℝ :=
  B.loglikeobs (List.replicate endog.length 0) params j

/-- Embedding of `GenericCensored.loglikeobs` (truncated_model.py lines
690-716): `np.concatenate((llf_main[self.zero_idx],
np.log(1 - np.exp(llf_main[self.nonzero_idx]))))`. -/
def censored_loglikeobs (B : BaseRowModel) (endog : List ℤ) (params : List ℝ) :
    List ℝ :=
  (zeroIdx endog).map (fun j => censoredLlfMain B endog params j) ++
    (nonzeroIdx endog).map (fun j => Real.log (1 - Real.exp (censoredLlfMain B endog params j)))

/-- The argument record a `fit` method passes to the superclass `fit` (the
external optimizer driver).  `method = none` means the keyword was not
passed, so the superclass default applies. -/
structure SuperFitArgs (P : Type) where
  start_params : P
  method : Option String
  maxiter : ℕ
  full_output : Bool
  disp : Bool

/-- The superclass call made by `GenericCensored.fit` (truncated_model.py
lines 762-779): `start_params`, `maxiter`, `disp`, `full_output` and a
callback are forwarded, but the caller's `method` argument is NOT. -/
def censoredFitArgs {P : Type} (start_params : P) (method : String) (maxiter : ℕ)
    (full_output disp : Bool) : SuperFitArgs P :=
  { start_params := start_params, method := none, maxiter := maxiter,
    full_output := full_output, disp := disp }

/-- The superclass call made by `GenericTruncated.fit` (truncated_model.py
lines 170-188): identical to the censored one except that `method=method`
IS forwarded. -/
def truncatedFitArgs {P : Type} (start_params : P) (method : String) (maxiter : ℕ)
    (full_output disp : Bool) : SuperFitArgs P :=
  { start_params := start_params, method := some method, maxiter := maxiter,
    full_output := full_output, disp := disp }

/-- Possible outcomes of the `which == 'mean'` branch of
`TruncatedGeneralizedPoisson.predict`: a value vector, the
`NotImplementedError("conditional mean not implemented")`, or the implicit
`None` fall-through when no truncation branch matches. -/
inductive TGPMeanResult (n : ℕ) where
  | val (v : Fin n → ℝ)
  | notImplementedError
  | fallthrough

/-- Embedding of the `which == 'mean'` branch of
`TruncatedGeneralizedPoisson.predict` (truncated_model.py lines 608-614):
closed form at `truncation == 0`, the untruncated mean at
`truncation == -1`, and `raise NotImplementedError` for positive
truncation. -/
def tgpPredictMean {n : ℕ} (truncation : ℤ) (linpred : Fin n → ℝ) : TGPMeanResult n :=
  if truncation = 0 then
    TGPMeanResult.val (fun j => Real.exp (linpred j) / (1 - Real.exp (-(Real.exp (linpred j)))))
  else if truncation = -1 then TGPMeanResult.val (fun j => Real.exp (linpred j))
  else if 0 < truncation then TGPMeanResult.notImplementedError
  else TGPMeanResult.fallthrough

/-- The composite-parameter split index computed identically by
`Hurdle.loglike` (truncated_model.py lines 1115-1116) and `Hurdle.predict`
(lines 1231-1232):
`k = int((len(params) - k_extra1 - k_extra2) / 2) + k_extra1`; Python's
`int(...)` truncates the true division toward zero, which is `Int.tdiv`. -/
def hurdleK (plen k1 k2 : ℕ) : ℤ :=
  ((plen : ℤ) - (k1 : ℤ) - (k2 : ℤ)).tdiv 2 + (k1 : ℤ)

/-- The split `params_zero = params[:k]`, `params_main = params[k:]` used
by both `Hurdle.loglike` and `Hurdle.predict`. -/
def hurdleSplit (k1 k2 : ℕ) (params : List ℝ) : List ℝ × List ℝ :=
  (params.take (hurdleK params.length k1 k2).toNat,
   params.drop (hurdleK params.length k1 k2).toNat)

/-- `params_zero`, the head slice handed to the censoring stage `model1`. -/
def hurdleParamsZero (k1 k2 : ℕ) (params : List ℝ) : List ℝ :=
  (hurdleSplit k1 k2 params).1

/-- `params_main`, the tail slice handed to the truncation stage `model2`. -/
def hurdleParamsMain (k1 k2 : ℕ) (params : List ℝ) : List ℝ :=
  (hurdleSplit k1 k2 params).2

/-- Embedding of `Hurdle.loglike` (truncated_model.py lines 1096-1118):
`model1.loglike(params[:k]) + model2.loglike(params[k:])`, with the two
sub-model log-likelihoods as abstract collaborators. -/
def hurdleLoglike (loglike1 loglike2 : List ℝ → ℝ) (k1 k2 : ℕ) (params : List ℝ) : ℝ :=
  loglike1 (hurdleParamsZero k1 k2 params) + loglike2 (hurdleParamsMain k1 k2 params)

/-- The state update `Hurdle.fit` applies to the instance fields
(truncated_model.py lines 1146-1147): `self.k_extra1 += results1.k_extra`
and `self.k_extra2 += results2.k_extra`, where `e1`, `e2` are the
sub-results' `k_extra` counts; `Hurdle.__init__` starts the state at
`(0, 0)`. -/
def hurdleFitKExtras (e1 e2 : ℕ) (s : ℕ × ℕ) : ℕ × ℕ :=
  (s.1 + e1, s.2 + e2)

/-- The collaborators `Hurdle.predict` consults, for a model with `n`
observations: the zero-stage family's `_prob_nonzero` (`model1.model_main`),
the positive-stage family's `_prob_nonzero` (`model2.model_main`), the
zero-stage prediction `model1.predict(params_zero, exog)`, the stage-2
probability matrix `model2.predict(params_main, ..., which='prob')`
(entry per observation and count column), and the linear predictor
`exog @ params_main[:k_exog] + exposure + offset`, together with the
instance fields `k_extra1`, `k_extra2`. -/
structure HurdleParts (n : ℕ) where
  k1 : ℕ
  k2 : ℕ
  probNonzero1 : ℝ → List ℝ → ℝ
  probNonzero2 : ℝ → List ℝ → ℝ
  predict1 : List ℝ → Fin n → ℝ
  predictProb2 : List ℝ → List ℤ → Fin n → ℕ → ℝ
  linPred : List ℝ → Fin n → ℝ

/-- `prob_main` in `Hurdle.predict` (truncated_model.py lines 1240-1241):
`self.model1.model_main._prob_nonzero(mu1, params_zero)` with
`mu1 = self.model1.predict(params_zero, exog=exog)`. -/
def hurdleProbMain {n : ℕ} (H : HurdleParts n) (params : List ℝ) (j : Fin n) : ℝ :=
  H.probNonzero1 (H.predict1 (hurdleParamsZero H.k1 H.k2 params) j)
    (hurdleParamsZero H.k1 H.k2 params)

/-- The `which == 'mean'` branch of `Hurdle.predict` (truncated_model.py
lines 1244-1248): `prob_main * np.exp(lin_pred) / prob_ntrunc` where
`prob_ntrunc = self.model1.model_main._prob_nonzero(mu2, params_main)` —
note the source consults the ZERO-stage family `model1.model_main` here,
with `mu2 = np.exp(lin_pred)`. -/
def hurdlePredictMean {n : ℕ} (H : HurdleParts n) (params : List ℝ) (j : Fin n) : ℝ :=
  hurdleProbMain H params j *
      Real.exp (H.linPred (hurdleParamsMain H.k1 H.k2 params) j) /
    H.probNonzero1 (Real.exp (H.linPred (hurdleParamsMain H.k1 H.k2 params) j))
      (hurdleParamsMain H.k1 H.k2 params)

/-- The composite mean as claim C2 states it: identical to
`hurdlePredictMean` except that `prob_ntrunc` is taken from the
positive-stage (`model2`) distribution evaluated at `params_main`. -/
def hurdlePredictMeanClaim {n : ℕ} (H : HurdleParts n) (params : List ℝ) (j : Fin n) : ℝ :=
  hurdleProbMain H params j *
      Real.exp (H.linPred (hurdleParamsMain H.k1 H.k2 params) j) /
    H.probNonzero2 (Real.exp (H.linPred (hurdleParamsMain H.k1 H.k2 params) j))
      (hurdleParamsMain H.k1 H.k2 params)

/-- The `which == 'prob'` branch of `Hurdle.predict` (truncated_model.py
lines 1265-1271), entry at observation `j` and column position `c`:
`probs_main = model2.predict(..., which='prob') * prob_main[:, None]`
followed by `probs_main[:, 0] = prob_zero` — the POSITION-0 column is
overwritten with `prob_zero = 1 - prob_main`. -/
def hurdlePredictProb {n : ℕ} (H : HurdleParts n) (params : List ℝ) (counts : List ℤ)
    (j : Fin n) (c : ℕ) : ℝ :=
  if c = 0 then 1 - hurdleProbMain H params j
  else
    H.predictProb2 (hurdleParamsMain H.k1 H.k2 params) counts j c *
      hurdleProbMain H params j

/-- Poisson probability of a nonzero count, `1 - exp(-mu)`.  Modelled from
the spec's external collaborator contract: `Poisson._prob_nonzero` of the
base count distributions (out of scope of this module's source). -/
def poissonProbNonzero (mu : ℝ) (params : List ℝ) : ℝ :=
  1 - Real.exp (-mu)

/-- NegativeBinomialP (p = 2) probability of a nonzero count,
`1 - (1 + alpha * mu) ** (-1 / alpha)` with `alpha` the last parameter.
Modelled from the spec's external collaborator contract:
`NegativeBinomialP._prob_nonzero` (out of scope of this module's
source). -/
def negbinProbNonzero (mu : ℝ) (params : List ℝ) : ℝ :=
  1 - (1 + params.getLastD 1 * mu) ^ (-(params.getLastD 1)⁻¹)

/-- A concrete Hurdle configuration with `zerodist='poisson'` and
`dist='negbin'`: the zero stage is Poisson (no extra parameter,
`k_extra1 = 0`) and the positive stage is NegativeBinomialP with one
dispersion parameter (`k_extra2 = 1`).  The stage-2 probability matrix
collaborator is an arbitrary fixed value, and the zero-stage prediction
and the linear predictor are `exp` of, respectively the value of, the
first coefficient (design row `x = [1]`, no offset or exposure). -/
def hurdlePoisNegbin : HurdleParts 1 where
  k1 := 0
  k2 := 1
  probNonzero1 := poissonProbNonzero
  probNonzero2 := negbinProbNonzero
  predict1 := fun pz _ => Real.exp (pz.getD 0 0)
  predictProb2 := fun _ _ _ _ => 1 / 3
  linPred := fun pm _ => pm.getD 0 0

end

/-- The `pmf` accumulator equals the sum of the counterfactual
probabilities over the truncated region. -/
theorem pmfLoop_eq_sum {n k : ℕ} (M : BaseModel n k) (params : Fin k → ℝ) (j : Fin n)
    (m : ℕ) :
    pmfLoop M params j m =
      ∑ i ∈ Finset.range m, Real.exp (M.loglikeobs (fun _ => (i : ℝ)) params j) := by
  induction m with
  | zero => simp [pmfLoop]
  | succ m ih => rw [pmfLoop, ih, Finset.sum_range_succ]

/-- The `score_trunc` accumulator equals the sum of counterfactual scores
weighted by their own probabilities. -/
theorem scoreTruncLoop_eq_sum {n k : ℕ} (M : BaseModel n k) (params : Fin k → ℝ)
    (j : Fin n) (c : Fin k) (m : ℕ) :
    scoreTruncLoop M params j c m =
      ∑ i ∈ Finset.range m,
        M.score_obs (fun _ => (i : ℝ)) params j c *
          Real.exp (M.loglikeobs (fun _ => (i : ℝ)) params j) := by
  induction m with
  | zero => simp [scoreTruncLoop]
  | succ m ih => rw [scoreTruncLoop, ih, Finset.sum_range_succ]

/-- Counterexample to claim C1 as stated: for the geometric base
distribution with `p = 1/2`, truncation point `0`, and the observation
`y = 1`, the code's `score_obs` is `-2` while the specification's formula
(`score_main` minus the truncation term) gives `2`. -/
theorem trunc_score_sign_counterexample :
    trunc_score_obs geomBase 0 (fun _ => 1) (fun _ => 1 / 2) 0 0 = -2 ∧
    trunc_score_obs_specform geomBase 0 (fun _ => 1) (fun _ => 1 / 2) 0 0 = 2 ∧
    trunc_score_obs geomBase 0 (fun _ => 1) (fun _ => 1 / 2) 0 0 ≠
      trunc_score_obs_specform geomBase 0 (fun _ => 1) (fun _ => 1 / 2) 0 0 := by
  have hlog : Real.exp (Real.log ((1:ℝ) / 2)) = 1 / 2 := Real.exp_log (by norm_num)
  refine ⟨?_, ?_, ?_⟩
  · simp only [trunc_score_obs, geomBase, truncIter, pmfLoop, scoreTruncLoop]
    norm_num [hlog]
  · simp only [trunc_score_obs_specform, geomBase, truncIter]
    norm_num [hlog]
  · simp only [trunc_score_obs, trunc_score_obs_specform, geomBase, truncIter,
      pmfLoop, scoreTruncLoop]
    norm_num [hlog]

/-- Claim C1 (amended): for every truncated count model with any base
distribution, truncation point `trunc ≥ 0` and parameters `params`, the
per-observation score equals `score_main` PLUS (not minus)
`(Σ_{i=0}^{trunc} pmf_i · score_main_at_i) / (1 - Σ_{i=0}^{trunc} pmf_i)`,
where `pmf_i` is the base probability of count `i` in the same exog
context and `score_main_at_i` the base score at that counterfactual
count. -/
theorem trunc_score_obs_closed_form {n k : ℕ} (M : BaseModel n k) (trunc : ℤ)
    (h : 0 ≤ trunc) (endog : Fin n → ℝ) (params : Fin k → ℝ) (j : Fin n) (c : Fin k) :
    trunc_score_obs M trunc endog params j c =
      M.score_obs endog params j c +
        (∑ i ∈ Finset.range (truncIter trunc),
            M.score_obs (fun _ => (i : ℝ)) params j c *
              Real.exp (M.loglikeobs (fun _ => (i : ℝ)) params j)) /
          (1 - ∑ i ∈ Finset.range (truncIter trunc),
              Real.exp (M.loglikeobs (fun _ => (i : ℝ)) params j)) := by
  rw [trunc_score_obs, scoreTruncLoop_eq_sum, pmfLoop_eq_sum]

/-- Witness for the amended claim C1 at the geometric base distribution,
truncation point `0`. -/
theorem trunc_score_obs_closed_form_witness :
    (0 : ℤ) ≤ 0 ∧
    trunc_score_obs geomBase 0 (fun _ => 1) (fun _ => 1 / 2) 0 0 =
      geomBase.score_obs (fun _ => 1) (fun _ => 1 / 2) 0 0 +
        (∑ i ∈ Finset.range (truncIter 0),
            geomBase.score_obs (fun _ => (i : ℝ)) (fun _ => 1 / 2) 0 0 *
              Real.exp (geomBase.loglikeobs (fun _ => (i : ℝ)) (fun _ => 1 / 2) 0)) /
          (1 - ∑ i ∈ Finset.range (truncIter 0),
              Real.exp (geomBase.loglikeobs (fun _ => (i : ℝ)) (fun _ => 1 / 2) 0)) :=
  ⟨le_refl 0,
    trunc_score_obs_closed_form geomBase 0 (le_refl 0) (fun _ => 1) (fun _ => 1 / 2) 0 0⟩

/-- Claim C4: a truncation adapter with `truncation = -1` returns exactly
the untruncated base distribution's `loglikeobs` and `score_obs`: the
reweighting loop never runs. -/
theorem trunc_neg_one_untruncated {n k : ℕ} (M : BaseModel n k) (endog : Fin n → ℝ)
    (params : Fin k → ℝ) (j : Fin n) (c : Fin k) :
    trunc_loglikeobs M (-1) endog params j = M.loglikeobs endog params j ∧
    trunc_score_obs M (-1) endog params j c = M.score_obs endog params j c := by
  constructor
  · simp [trunc_loglikeobs, truncIter, pmfLoop]
  · simp [trunc_score_obs, truncIter, pmfLoop, scoreTruncLoop]

/-- Mask indexing with the pointwise image of a predicate is `filter`. -/
theorem maskFilter_map_self {β : Type} (e : List β) (pb : β → Bool) :
    maskFilter (e.map pb) e = e.filter pb := by
  induction e with
  | nil => rfl
  | cons a e ih =>
      by_cases h : pb a <;> simp [maskFilter, List.filter_cons, h] at ih ⊢ <;>
        simpa [maskFilter] using ih

/-- Applying one mask, derived from `e`, to both `e` and a second list `x`
keeps the two filtered lists row-aligned: their zip is the filter of the
original zip. -/
theorem maskFilter_zip_align {β : Type} (e : List ℤ) (x : List β) (pb : ℤ → Bool) :
    (maskFilter (e.map pb) e).zip (maskFilter (e.map pb) x) =
      (e.zip x).filter (fun p => pb p.1) := by
  induction e generalizing x with
  | nil => simp [maskFilter]
  | cons a e ih =>
      cases x with
      | nil =>
          simp only [List.zip_nil_right, List.filter_nil]
          have : maskFilter ((a :: e).map pb) ([] : List β) = [] := by
            simp [maskFilter]
          rw [this, List.zip_nil_right]
      | cons b x =>
          by_cases h : pb a <;>
            simp [maskFilter, List.filter_cons, h, List.zip_cons_cons] at ih ⊢ <;>
            simpa [maskFilter] using ih x

/-- Claim C6: `GenericTruncated.__init__` stores the truncation point
unchanged, discards exactly the rows with `endog ≤ trunc` (the kept mask
`endog ≥ trunc + 1` is the complement, since responses are integer
counts), and applies the same row mask to `endog` and `exog`, so the
retained rows stay aligned; all later operations of the embedding are
pure, so the stored data is never modified. -/
theorem trunc_init_filtering {α : Type} (endog : List ℤ) (exog : List α) (t : ℤ) :
    (truncInit endog exog t).trunc = t ∧
    (truncInit endog exog t).endog = endog.filter (fun y => decide (¬ y ≤ t)) ∧
    ((truncInit endog exog t).endog).zip ((truncInit endog exog t).exog) =
      (endog.zip exog).filter (fun p => decide (¬ p.1 ≤ t)) := by
  have hfun : (fun y : ℤ => decide (t + 1 ≤ y)) = fun y : ℤ => decide (¬ y ≤ t) := by
    funext y
    simp only [decide_eq_decide]
    omega
  have hmask : truncMask endog t = endog.map (fun y : ℤ => decide (¬ y ≤ t)) := by
    rw [truncMask, hfun]
  refine ⟨rfl, ?_, ?_⟩
  · show maskFilter (truncMask endog t) endog = _
    rw [hmask, maskFilter_map_self]
  · show (maskFilter (truncMask endog t) endog).zip (maskFilter (truncMask endog t) exog) = _
    rw [hmask, maskFilter_zip_align]

/-- Claim C5: `GenericCensored.loglikeobs` returns `log f(0|x)` for the
zero rows and `log (1 - f(0|x))` for the nonzero rows, concatenated with
all `zero_idx` rows first and all `nonzero_idx` rows second; on
`endog = [0, 2, 0, 5]` the output order is rows `[0, 2, 1, 3]`, not the
original row order. -/
theorem censored_loglikeobs_order (B : BaseRowModel) (params : List ℝ) :
    (∀ endog : List ℤ,
      censored_loglikeobs B endog params =
        (zeroIdx endog).map (fun j => censoredLlfMain B endog params j) ++
          (nonzeroIdx endog).map
            (fun j => Real.log (1 - Real.exp (censoredLlfMain B endog params j)))) ∧
    zeroIdx [0, 2, 0, 5] = [0, 2] ∧
    nonzeroIdx [0, 2, 0, 5] = [1, 3] ∧
    zeroIdx [0, 2, 0, 5] ++ nonzeroIdx [0, 2, 0, 5] = [0, 2, 1, 3] ∧
    censored_loglikeobs B [0, 2, 0, 5] params =
      [censoredLlfMain B [0, 2, 0, 5] params 0,
       censoredLlfMain B [0, 2, 0, 5] params 2,
       Real.log (1 - Real.exp (censoredLlfMain B [0, 2, 0, 5] params 1)),
       Real.log (1 - Real.exp (censoredLlfMain B [0, 2, 0, 5] params 3))] := by
  refine ⟨fun endog => rfl, by decide, by decide, by decide, ?_⟩
  have hz : zeroIdx [0, 2, 0, 5] = [0, 2] := by decide
  have hnz : nonzeroIdx [0, 2, 0, 5] = [1, 3] := by decide
  rw [censored_loglikeobs, hz, hnz]
  rfl

/-- Claim C9: `GenericCensored.fit` does not forward its `method` argument
to the superclass optimizer call, so two fits that differ only in `method`
make the identical superclass call (and hence produce the same result),
and the call's method slot is the superclass default; `GenericTruncated.fit`
does forward `method`. -/
theorem censored_fit_ignores_method {P R : Type} (superFit : SuperFitArgs P → R)
    (start_params : P) (m1 m2 : String) (maxiter : ℕ) (full_output disp : Bool) :
    superFit (censoredFitArgs start_params m1 maxiter full_output disp) =
      superFit (censoredFitArgs start_params m2 maxiter full_output disp) ∧
    (censoredFitArgs start_params m1 maxiter full_output disp).method = none ∧
    (truncatedFitArgs start_params m1 maxiter full_output disp).method = some m1 :=
  ⟨rfl, rfl, rfl⟩

/-- Claim C8: `TruncatedGeneralizedPoisson.predict` with `which='mean'`
and positive truncation raises `NotImplementedError` instead of returning
a value. -/
theorem tgp_mean_positive_trunc_not_implemented {n : ℕ} (truncation : ℤ)
    (linpred : Fin n → ℝ) (h : 0 < truncation) :
    tgpPredictMean truncation linpred = TGPMeanResult.notImplementedError := by
  have h0 : ¬ truncation = 0 := by omega
  have h1 : ¬ truncation = -1 := by omega
  simp [tgpPredictMean, h0, h1, h]

/-- Witness for claim C8 at truncation point `1`. -/
theorem tgp_mean_positive_trunc_not_implemented_witness :
    (0 : ℤ) < 1 ∧
    tgpPredictMean 1 (fun _ : Fin 1 => (0 : ℝ)) = TGPMeanResult.notImplementedError :=
  ⟨by decide,
    tgp_mean_positive_trunc_not_implemented 1 (fun _ : Fin 1 => (0 : ℝ)) (by decide)⟩

/-- Claim C3: `Hurdle.loglike` and `Hurdle.predict` both split the
composite parameter vector at
`k = (len(params) - k_extra1 - k_extra2)/2 + k_extra1` (the split is the
single function `hurdleSplit`, used by the log-likelihood and by every
predict formula through `hurdleParamsZero`/`hurdleParamsMain`); with
`k_extra1 = 0`, `k_extra2 = 1` and seven parameters the split index is
`3`, and the log-likelihood is `model1.loglike(params[:3]) +
model2.loglike(params[3:])`. -/
theorem hurdle_split_and_loglike (loglike1 loglike2 : List ℝ → ℝ) (params : List ℝ)
    (h : params.length = 7) :
    (∀ k1 k2 : ℕ, hurdleSplit k1 k2 params =
      (params.take (hurdleK params.length k1 k2).toNat,
       params.drop (hurdleK params.length k1 k2).toNat)) ∧
    hurdleK params.length 0 1 = 3 ∧
    hurdleParamsZero 0 1 params = params.take 3 ∧
    hurdleParamsMain 0 1 params = params.drop 3 ∧
    hurdleLoglike loglike1 loglike2 0 1 params =
      loglike1 (params.take 3) + loglike2 (params.drop 3) := by
  have hk : (hurdleK 7 0 1).toNat = 3 := by decide
  refine ⟨fun k1 k2 => rfl, ?_, ?_, ?_, ?_⟩
  · rw [h]; decide
  · simp only [hurdleParamsZero, hurdleSplit, h, hk]
  · simp only [hurdleParamsMain, hurdleSplit, h, hk]
  · simp only [hurdleLoglike, hurdleParamsZero, hurdleParamsMain, hurdleSplit, h, hk]

/-- Witness for claim C3 on a concrete seven-entry parameter vector. -/
theorem hurdle_split_and_loglike_witness :
    (∀ k1 k2 : ℕ, hurdleSplit k1 k2 [(1:ℝ), 2, 3, 4, 5, 6, 7] =
      ([(1:ℝ), 2, 3, 4, 5, 6, 7].take
        (hurdleK [(1:ℝ), 2, 3, 4, 5, 6, 7].length k1 k2).toNat,
       [(1:ℝ), 2, 3, 4, 5, 6, 7].drop
        (hurdleK [(1:ℝ), 2, 3, 4, 5, 6, 7].length k1 k2).toNat)) ∧
    hurdleK [(1:ℝ), 2, 3, 4, 5, 6, 7].length 0 1 = 3 ∧
    hurdleParamsZero 0 1 [(1:ℝ), 2, 3, 4, 5, 6, 7] = [(1:ℝ), 2, 3, 4, 5, 6, 7].take 3 ∧
    hurdleParamsMain 0 1 [(1:ℝ), 2, 3, 4, 5, 6, 7] = [(1:ℝ), 2, 3, 4, 5, 6, 7].drop 3 ∧
    hurdleLoglike (fun l => (l.length : ℝ)) (fun l => (l.length : ℝ)) 0 1
        [(1:ℝ), 2, 3, 4, 5, 6, 7] =
      (fun l : List ℝ => (l.length : ℝ)) ([(1:ℝ), 2, 3, 4, 5, 6, 7].take 3) +
        (fun l : List ℝ => (l.length : ℝ)) ([(1:ℝ), 2, 3, 4, 5, 6, 7].drop 3) :=
  hurdle_split_and_loglike (fun l => (l.length : ℝ)) (fun l => (l.length : ℝ))
    [(1:ℝ), 2, 3, 4, 5, 6, 7] rfl

/-- Claim C10: each `Hurdle.fit` call adds the sub-results' `k_extra`
counts onto the instance fields with `+=`, so after `nfits` calls on the
same instance the fields hold the `nfits`-fold accumulated values; the
split index then differs between one and two fit calls for the
`k_extra = (0, 1)` configuration with seven parameters, so it depends on
how many times `fit` ran, not only on the configuration. -/
theorem hurdle_fit_accumulates_k_extra (e1 e2 nfits : ℕ) :
    (hurdleFitKExtras e1 e2)^[nfits] (0, 0) = (nfits * e1, nfits * e2) ∧
    hurdleK 7 (1 * 0) (1 * 1) = 3 ∧
    hurdleK 7 (2 * 0) (2 * 1) = 2 ∧
    hurdleK 7 (1 * 0) (1 * 1) ≠ hurdleK 7 (2 * 0) (2 * 1) := by
  refine ⟨?_, by decide, by decide, by decide⟩
  induction nfits with
  | zero => simp
  | succ m ih =>
      rw [Function.iterate_succ_apply', ih]
      simp [hurdleFitKExtras, Nat.succ_mul]

/-- Claim C2: on the Hurdle configuration `zerodist='poisson'`,
`dist='negbin'` with composite parameters `[0, 0, 1]`, the code computes
the composite mean with `prob_ntrunc` from the ZERO-stage (model1,
Poisson) family — giving `1` — while the claim's formula, `prob_ntrunc`
from the positive-stage (model2, NegativeBinomialP) distribution at
`params_main`, gives `2 - 2·exp(-1)`; the two differ. -/
theorem hurdle_mean_uses_zero_stage_family :
    hurdlePredictMean hurdlePoisNegbin [0, 0, 1] 0 = 1 ∧
    hurdlePredictMeanClaim hurdlePoisNegbin [0, 0, 1] 0 = 2 - 2 * Real.exp (-1) ∧
    hurdlePredictMean hurdlePoisNegbin [0, 0, 1] 0 ≠
      hurdlePredictMeanClaim hurdlePoisNegbin [0, 0, 1] 0 := by
  have hne : (1:ℝ) - Real.exp (-1) ≠ 0 := by
    have hlt : Real.exp (-1) < 1 := by
      have h := Real.exp_lt_exp.mpr (show (-1:ℝ) < 0 by norm_num)
      rw [Real.exp_zero] at h
      exact h
    intro hcontra
    nlinarith
  have he2 : Real.exp 1 ≠ 2 := by
    have h9 := Real.exp_one_gt_d9
    intro hcontra
    rw [hcontra] at h9
    norm_num at h9
  have hrpow : ((2:ℝ)) ^ (-(1:ℝ)) = 1 / 2 := by
    rw [Real.rpow_neg (by norm_num), Real.rpow_one]
    norm_num
  have h1 : hurdlePredictMean hurdlePoisNegbin [0, 0, 1] 0 =
      (1 - Real.exp (-Real.exp 0)) * Real.exp 0 / (1 - Real.exp (-Real.exp 0)) := rfl
  have h2 : hurdlePredictMeanClaim hurdlePoisNegbin [0, 0, 1] 0 =
      (1 - Real.exp (-Real.exp 0)) * Real.exp 0 /
        (1 - (1 + 1 * Real.exp 0) ^ (-(1:ℝ)⁻¹)) := rfl
  have hc1 : hurdlePredictMean hurdlePoisNegbin [0, 0, 1] 0 = 1 := by
    rw [h1, Real.exp_zero, mul_one, div_self hne]
  have hc2 : hurdlePredictMeanClaim hurdlePoisNegbin [0, 0, 1] 0 =
      2 - 2 * Real.exp (-1) := by
    rw [h2, Real.exp_zero, mul_one]
    rw [show (1:ℝ) + 1 * 1 = 2 by norm_num, show -(1:ℝ)⁻¹ = -(1:ℝ) by norm_num, hrpow]
    rw [show (1:ℝ) - 1 / 2 = 1 / 2 by norm_num]
    field_simp
    ring
  refine ⟨hc1, hc2, ?_⟩
  rw [hc1, hc2]
  intro hcontra
  have hexp : Real.exp (-1) = 1 / 2 := by linarith
  have hcontr2 : Real.exp 1 = 2 := by
    have hinv : (Real.exp 1)⁻¹ = 1 / 2 := by rw [← Real.exp_neg]; exact hexp
    have hres := congrArg (fun x : ℝ => x⁻¹) hinv
    simpa using hres
  exact he2 hcontr2

/-- Counterexample to claim C7 as stated: for the requested count set
`[1, 0]`, which includes count `0` at column position `1`, the entry the
code returns in the count-0 column is `pmf2 · prob_main = (1 - exp(-1))/3`
and not `prob_zero = exp(-1)`: only the POSITION-0 column is
overwritten. -/
theorem hurdle_prob_count_zero_column_counterexample :
    [(1 : ℤ), 0].getD 1 99 = 0 ∧
    hurdlePredictProb hurdlePoisNegbin [0, 0, 1] [1, 0] 0 1 =
      (1 - Real.exp (-1)) / 3 ∧
    1 - hurdleProbMain hurdlePoisNegbin [0, 0, 1] 0 = Real.exp (-1) ∧
    hurdlePredictProb hurdlePoisNegbin [0, 0, 1] [1, 0] 0 1 ≠
      1 - hurdleProbMain hurdlePoisNegbin [0, 0, 1] 0 := by
  have hpm0 : hurdleProbMain hurdlePoisNegbin [0, 0, 1] 0 =
      1 - Real.exp (-Real.exp 0) := rfl
  have hpm : hurdleProbMain hurdlePoisNegbin [0, 0, 1] 0 = 1 - Real.exp (-1) := by
    rw [hpm0, Real.exp_zero]
  have hval : hurdlePredictProb hurdlePoisNegbin [0, 0, 1] [1, 0] 0 1 =
      1 / 3 * (1 - Real.exp (-Real.exp 0)) := rfl
  have he4 : Real.exp 1 ≠ 4 := by
    have h9 := Real.exp_one_lt_d9
    intro hcontra
    rw [hcontra] at h9
    norm_num at h9
  have hc : hurdlePredictProb hurdlePoisNegbin [0, 0, 1] [1, 0] 0 1 =
      (1 - Real.exp (-1)) / 3 := by
    rw [hval, Real.exp_zero]
    ring
  have hpz : 1 - hurdleProbMain hurdlePoisNegbin [0, 0, 1] 0 = Real.exp (-1) := by
    rw [hpm]
    ring
  refine ⟨rfl, hc, hpz, ?_⟩
  rw [hc, hpz]
  intro hcontra
  have hexp : Real.exp (-1) = 1 / 4 := by linarith
  have hcontr4 : Real.exp 1 = 4 := by
    have hinv : (Real.exp 1)⁻¹ = 1 / 4 := by rw [← Real.exp_neg]; exact hexp
    have hres := congrArg (fun x : ℝ => x⁻¹) hinv
    simpa using hres
  exact he4 hcontr4

/-- Claim C7 (amended): `Hurdle.predict(which='prob')` overwrites the
POSITION-0 column of the returned matrix with `prob_zero = 1 - prob_main`
exactly (not averaged with the stage-2 pmf); this is the count-0 column
whenever the requested counts start with `0`, as the default
`0..max(endog)` does. -/
theorem hurdle_prob_column_zero {n : ℕ} (H : HurdleParts n) (params : List ℝ)
    (counts : List ℤ) (j : Fin n) :
    hurdlePredictProb H params counts j 0 = 1 - hurdleProbMain H params j := by
  simp [hurdlePredictProb]

end TruncatedModelPy
